import Mathlib

/-!
Verification of the latent-network module of the HOMS robot controller
(`3_Robot_controller/network/latent.py`).

The module defines PyTorch model classes: `Gaussian`, `ConstantGaussian`,
`Decoder`, `Encoder`, `LatentNetwork` and `TaskNetwork`.  We embed them
shallowly:

* a batched feature tensor of shape `(batch, features)` is a `List (List ℝ)`
  (outer list = batch dimension, inner list = last dimension);
* a 4-D image tensor of shape `(N, C, H, W)` is a nested list `Tensor4`;
* configuration scalars that the Python code stores as attributes and tests
  for truthiness (`std`, `leaky_slope`) are rationals (every Python float is
  a dyadic rational), cast to `ℝ` where they enter tensor arithmetic;
* layers whose semantics are supplied by the external framework
  (convolutions, and the fully-connected network built by
  `create_linear_network` from `network/base.py`, which is outside the
  excerpt) are abstract function fields of the module records, together with
  the constructor arguments the source passes to them;
* a `forward` method is embedded in state-passing style: it returns the
  module together with its result, so that the absence of attribute
  assignments in the method body is a statable property of the embedding.
-/

namespace Latent

/-- A batched feature tensor of shape `(batch, features)`. -/
abbrev Mat := List (List ℝ)

/-- A 4-D tensor of shape `(N, C, H, W)`. -/
abbrev Tensor4 := List (List (List (List ℝ)))

/-- Elementwise map over a 4-D tensor. -/
def map4 (f : ℝ → ℝ) (t : Tensor4) : Tensor4 :=
  t.map (List.map (List.map (List.map f)))

/-- The flat list of entries of a 4-D tensor, in row-major order. -/
def entries4 (t : Tensor4) : List ℝ :=
  t.flatten.flatten.flatten

/-- `x.view(num_batches, -1)`: each batch element of a 4-D tensor is
flattened, row-major, into one feature row. -/
def flattenBatch (t : Tensor4) : Mat :=
  t.map (fun chw => chw.flatten.flatten)

/-- `torch.cat(xs, dim=-1)` on batched feature tensors: rows with the same
batch index are concatenated. -/
def catLastDim : List Mat → Mat
  | [] => []
  | [m] => m
  | m :: ms => List.zipWith (· ++ ·) m (catLastDim ms)

/-- `mean, std = torch.chunk(x, 2, dim=-1)` on a row of length `L`: the first
chunk holds the first `⌈L/2⌉` entries, the second chunk the rest. -/
def chunk2 (x : List ℝ) : List ℝ × List ℝ :=
  (x.take ((x.length + 1) / 2), x.drop ((x.length + 1) / 2))

/-- `F.softplus` with the default `beta = 1`: `log(1 + exp x)`. -/
noncomputable def softplus (x : ℝ) : ℝ :=
  Real.log (1 + Real.exp x)

/-- `F.leaky_relu` with the given negative slope. -/
noncomputable def leaky_relu (slope : ℝ) (x : ℝ) : ℝ :=
  if 0 ≤ x then x else slope * x

/-- Python truthiness of the optional float attribute `self.std`: `None` and
`0.0` are falsy, every other float is truthy. -/
def pyTruthy : Option ℚ → Bool
  | none => false
  | some s => s != 0

/-- `torch.distributions.Normal(loc, scale)`, recorded by its two parameter
tensors. -/
structure NormalDist (T : Type) where
  loc : T
  scale : T

/-- An argument to a `forward` method: either a single tensor or a Python
list/tuple of tensors, to be concatenated along the last dimension. -/
inductive GInput where
  | single (x : Mat)
  | many (xs : List Mat)

/-- The tensor a `forward` body works on after its `isinstance` test:
a list/tuple input is replaced by `torch.cat(x, dim=-1)`. -/
def GInput.toMat : GInput → Mat
  | .single x => x
  | .many xs => catLastDim xs

/-- Modelled from the spec: `create_linear_network` lives in
`network/base.py`, which is not part of the excerpt.  The spec describes its
results only as fully-connected networks mapping features to outputs, so we
model a built network by its interface: the dimensions it was built for and
the (framework-evaluated) map it applies to each feature row. -/
structure LinearNetwork where
  input_dim : Nat
  output_dim : Nat
  run : List ℝ → List ℝ

/-- Shape-correctness of a built network: rows of its input dimension map to
rows of its output dimension. -/
def LinearNetwork.wf (n : LinearNetwork) : Prop :=
  ∀ x : List ℝ, x.length = n.input_dim → (n.run x).length = n.output_dim

/-- Modelled from the spec: the builder `create_linear_network` from
`network/base.py`, applied to the dimensions the caller passes and an
abstract row map standing for the framework-owned weights. -/
def create_linear_network (input_dim output_dim : Nat)
    (raw : List ℝ → List ℝ) : LinearNetwork :=
  ⟨input_dim, output_dim, raw⟩

/-- The `Gaussian` module: a fully-connected distribution head with an
optional fixed standard deviation. -/
structure Gaussian where
  input_dim : Nat
  output_dim : Nat
  std : Option ℚ
  net : LinearNetwork

/-- `Gaussian.__init__`: the underlying network is built with output size
`2*output_dim` when `std is None` and `output_dim` otherwise, and `std` is
stored. -/
def Gaussian.make (input_dim output_dim : Nat) (std : Option ℚ)
    (raw : List ℝ → List ℝ) : Gaussian :=
  { input_dim := input_dim
    output_dim := output_dim
    std := std
    net := create_linear_network input_dim
      (match std with
       | none => 2 * output_dim
       | some _ => output_dim) raw }

/-- `Gaussian.forward`: concatenate list inputs, run the network, then either
pair the whole output with the constant scale `self.std` (when `self.std` is
truthy) or chunk it into a mean and a raw scale, the latter sent through
`softplus(·) + 1e-5`.  The module itself is returned unchanged: the method
body assigns no attribute. -/
noncomputable def Gaussian.forward (g : Gaussian) (input : GInput) :
    Gaussian × NormalDist Mat :=
  let x := (input.toMat).map g.net.run
  (g,
    if pyTruthy g.std then
      { loc := x
        scale := x.map (fun row => row.map (fun _ => ((g.std.getD 0 : ℚ) : ℝ))) }
    else
      let mean := x.map (fun row => (chunk2 row).1)
      let stdraw := x.map (fun row => (chunk2 row).2)
      { loc := mean
        scale := stdraw.map (fun row => row.map (fun v => softplus v + 1e-5)) })

/-- The `ConstantGaussian` module: an input-independent Gaussian head. -/
structure ConstantGaussian where
  output_dim : Nat
  std : ℚ

/-- `ConstantGaussian.forward`: a zero mean of shape
`(x.size(0), output_dim)` and a constant scale `self.std` of the same shape.
Only the batch size of `x` is consulted (`.to(x)` adjusts dtype/device,
which the value model does not track). -/
noncomputable def ConstantGaussian.forward (c : ConstantGaussian) (x : Mat) :
    ConstantGaussian × NormalDist Mat :=
  (c,
    { loc := List.replicate x.length (List.replicate c.output_dim (0 : ℝ))
      scale := List.replicate x.length
        (List.replicate c.output_dim ((c.std : ℝ))) })

/-- The `Decoder` module: a fixed stack of nine convolutional layers (six
transpose convolutions followed by three convolutions), applied with leaky
ReLU activations and a final `tanh`.  `convts i` is the framework-evaluated
application of the `i`-th layer of the `nn.ModuleList`. -/
structure Decoder where
  input_dim : Nat
  output_dim : Nat
  std : ℚ
  leaky_slope : ℚ
  convts : Nat → Tensor4 → Tensor4

/-- The convolutional pipeline of `Decoder.forward`: reshape the latent
batch to `(num_batches, latent_dim, 1, 1)`, apply layers `0..7` each
followed by `leaky_relu`, then apply layer `8` (whose activation, `tanh`,
is applied by `forward` itself). -/
noncomputable def Decoder.convStack (d : Decoder) (latent : Mat) : Tensor4 :=
  d.convts 8 ((List.range 8).foldl
    (fun acc i => map4 (leaky_relu (d.leaky_slope : ℝ)) (d.convts i acc))
    (latent.map (fun row => row.map (fun v => [[v]]))))

/-- `Decoder.forward`: run the convolutional pipeline, take `tanh` of the
result, and return `Normal(recon, ones_like(recon) * self.std)`. -/
noncomputable def Decoder.forward (d : Decoder) (latent : Mat) :
    Decoder × NormalDist Tensor4 :=
  let recon := map4 Real.tanh (d.convStack latent)
  (d, { loc := recon, scale := map4 (fun _ => (d.std : ℝ)) recon })

/-- The `Encoder` module: a fixed stack of six convolutional layers followed
by a `Gaussian` head on the flattened features.  `convs i` is the
framework-evaluated application of the `i`-th layer of the
`nn.ModuleList`. -/
structure Encoder where
  input_dim : Nat
  latent_dim : Nat
  leaky_slope : ℚ
  convs : Nat → Tensor4 → Tensor4
  gau : Gaussian

/-- `Encoder.__init__`: the `Gaussian` head is built on the `27*27*64`
flattened convolutional features with `std=None` (the default). -/
def Encoder.make (input_dim latent_dim : Nat) (leaky_slope : ℚ)
    (convs : Nat → Tensor4 → Tensor4) (raw : List ℝ → List ℝ) : Encoder :=
  { input_dim := input_dim
    latent_dim := latent_dim
    leaky_slope := leaky_slope
    convs := convs
    gau := Gaussian.make (27 * 27 * 64) latent_dim none raw }

/-- The flattened convolutional features of `Encoder.forward`: layers `0..5`
each followed by `leaky_relu`, then `x.view(num_batches, -1)`. -/
noncomputable def Encoder.convFeatures (e : Encoder) (x : Tensor4) : Mat :=
  flattenBatch ((List.range 6).foldl
    (fun acc i => map4 (leaky_relu (e.leaky_slope : ℝ)) (e.convs i acc)) x)

/-- `Encoder.forward`: run the convolutional stack, flatten, feed the
`Gaussian` head, and return `(dist.loc, dist)`. -/
noncomputable def Encoder.forward (e : Encoder) (x : Tensor4) :
    Encoder × (Mat × NormalDist Mat) :=
  let dist := (e.gau.forward (.single (e.convFeatures x))).2
  (e, (dist.loc, dist))

/-- The `TaskNetwork` module: a fully-connected network whose output is
chunked into affine conditioning parameters. -/
structure TaskNetwork where
  input_dim : Nat
  output_dim : Nat
  net : LinearNetwork

/-- `TaskNetwork.__init__`: the underlying network is built with output size
`output_dim*2`. -/
def TaskNetwork.make (input_dim output_dim : Nat)
    (raw : List ℝ → List ℝ) : TaskNetwork :=
  { input_dim := input_dim
    output_dim := output_dim
    net := create_linear_network input_dim (output_dim * 2) raw }

/-- `TaskNetwork.forward`: concatenate list inputs, run the network, chunk
the output in two along the last dimension, and return the Python list
`[gamma, bias]`. -/
def TaskNetwork.forward (t : TaskNetwork) (input : GInput) :
    TaskNetwork × List Mat :=
  let y := (input.toMat).map t.net.run
  (t, [y.map (fun row => (chunk2 row).1), y.map (fun row => (chunk2 row).2)])

/-- Modelled from the spec: `tie_weights` lives in `network/base.py`, outside
the excerpt.  Per the source docstring (`"""Tie convolutional layers"""`),
`copy_conv_weights_from` makes this module share its layers with the source
module; we model the result of the tie as the assignment of the source's
network. -/
def TaskNetwork.copy_conv_weights_from (t source : TaskNetwork) : TaskNetwork :=
  { t with net := source.net }

/-! ### Layer descriptions for the `weight_init` assertion

`weight_init` inspects each submodule; for `nn.Conv2d` and
`nn.ConvTranspose2d` it asserts `m.weight.size(2) == m.weight.size(3)`, the
two kernel dimensions.  We record the constructor arguments of every layer
built in `Encoder.__init__` and `Decoder.__init__` as descriptions. -/

/-- A description of a layer as constructed: its kind and the shape
arguments passed to the framework constructor. -/
inductive LayerDesc where
  | linear (inF outF : Nat)
  | conv2d (inC outC : Nat) (kernel : Nat × Nat) (stride padding : Nat)
  | convT2d (inC outC : Nat) (kernel : Nat × Nat)
      (stride padding outputPadding : Nat)
deriving DecidableEq

/-- `nn.Conv2d` called with an integer `kernel_size` `k`, which the
framework expands to the square kernel `(k, k)`. -/
def nnConv2d (inC outC k stride padding : Nat) : LayerDesc :=
  .conv2d inC outC (k, k) stride padding

/-- `nn.ConvTranspose2d` called with an integer `kernel_size` `k`, which the
framework expands to the square kernel `(k, k)`. -/
def nnConvTranspose2d (inC outC k stride padding opad : Nat) : LayerDesc :=
  .convT2d inC outC (k, k) stride padding opad

/-- The assertion performed by `weight_init` on a submodule: convolutional
layers must satisfy `weight.size(2) == weight.size(3)`, i.e. have a square
kernel; linear and other layers pass unasserted. -/
def weight_init_ok : LayerDesc → Bool
  | .conv2d _ _ k _ _ => k.1 == k.2
  | .convT2d _ _ k _ _ _ => k.1 == k.2
  | .linear _ _ => true

/-- The `nn.ModuleList` built in `Encoder.__init__` (`nn.Conv2d(64, 64, 1)`
uses the framework defaults `stride=1`, `padding=0`). -/
def Encoder.convLayers (input_dim : Nat) : List LayerDesc :=
  [nnConv2d input_dim 32 5 2 2,
   nnConv2d 32 32 3 2 1,
   nnConv2d 32 64 3 1 1,
   nnConv2d 64 64 3 2 1,
   nnConv2d 64 64 3 1 1,
   nnConv2d 64 64 1 1 0]

/-- The `nn.ModuleList` built in `Decoder.__init__`
(`nn.ConvTranspose2d(input_dim, 64, 27)` uses the framework defaults
`stride=1`, `padding=0`, `output_padding=0`; omitted `output_padding`
arguments default to `0`). -/
def Decoder.convtLayers (input_dim output_dim : Nat) : List LayerDesc :=
  [nnConvTranspose2d input_dim 64 27 1 0 0,
   nnConvTranspose2d 64 64 3 1 1 0,
   nnConvTranspose2d 64 64 3 2 1 1,
   nnConvTranspose2d 64 32 3 1 1 0,
   nnConvTranspose2d 32 32 3 2 1 1,
   nnConvTranspose2d 32 32 5 2 2 1,
   nnConv2d 32 64 3 1 1,
   nnConv2d 64 64 3 1 1,
   nnConv2d 64 output_dim 3 1 1]

/-! ### Helper lemmas -/

/-- `softplus` is nonnegative: `1 + exp x ≥ 1`, so its logarithm is `≥ 0`. -/
theorem softplus_nonneg (x : ℝ) : 0 ≤ softplus x :=
  Real.log_nonneg (by nlinarith [Real.exp_pos x])

/-- The hyperbolic tangent is bounded above by `1`. -/
theorem tanh_le_one (x : ℝ) : Real.tanh x ≤ 1 := by
  rw [Real.tanh_eq_sinh_div_cosh, div_le_one (Real.cosh_pos x)]
  nlinarith [Real.cosh_sub_sinh x, Real.exp_pos (-x)]

/-- The hyperbolic tangent is bounded below by `-1`. -/
theorem neg_one_le_tanh (x : ℝ) : -1 ≤ Real.tanh x := by
  rw [Real.tanh_eq_sinh_div_cosh, le_div_iff₀ (Real.cosh_pos x)]
  nlinarith [Real.cosh_add_sinh x, Real.exp_pos x]

/-- Entry list of an elementwise map of a 4-D tensor. -/
theorem entries4_map4 (f : ℝ → ℝ) (t : Tensor4) :
    entries4 (map4 f t) = (entries4 t).map f := by
  simp [entries4, map4, List.map_flatten]

/-! ### Claim theorems -/

/-- C1: for every input tensor `x`, `Encoder.forward x` returns a pair whose
second component is the Normal distribution produced by the internal
`Gaussian` head applied to the flattened convolutional features, and whose
first component is exactly that distribution's mean `dist.loc`. -/
theorem encoder_forward_returns_head_dist (e : Encoder) (x : Tensor4) :
    (e.forward x).2.2 = (e.gau.forward (.single (e.convFeatures x))).2 ∧
    (e.forward x).2.1 = (e.forward x).2.2.loc :=
  ⟨rfl, rfl⟩

/-- C3: every convolutional layer constructed in `Encoder.__init__` and
`Decoder.__init__` has a square kernel, so the assertion of `weight_init`
passes on each of them. -/
theorem weight_init_square_kernels (input_dim output_dim : Nat)
    (ld : LayerDesc)
    (h : ld ∈ Encoder.convLayers input_dim
      ++ Decoder.convtLayers input_dim output_dim) :
    weight_init_ok ld = true := by
  fin_cases h <;> rfl

/-- C3 witness: the first encoder layer with `input_dim = 3` passes the
`weight_init` assertion. -/
theorem weight_init_square_kernels_witness :
    weight_init_ok (nnConv2d 3 32 5 2 2) = true :=
  weight_init_square_kernels 3 3 (nnConv2d 3 32 5 2 2)
    (by simp [Encoder.convLayers])

/-- C5: `Decoder.forward` returns a Normal whose mean, the `tanh` of the
final convolution output, lies in `[-1, 1]` at every position, and whose
scale equals the construction-time `std` at every position. -/
theorem decoder_forward_mean_bounded (d : Decoder) (latent : Mat) :
    (∀ v ∈ entries4 (d.forward latent).2.loc, -1 ≤ v ∧ v ≤ 1) ∧
    (∀ v ∈ entries4 (d.forward latent).2.scale, v = (d.std : ℝ)) := by
  constructor
  · intro v hv
    rw [show (d.forward latent).2.loc = map4 Real.tanh (d.convStack latent)
        from rfl, entries4_map4] at hv
    obtain ⟨u, -, rfl⟩ := List.mem_map.1 hv
    exact ⟨neg_one_le_tanh u, tanh_le_one u⟩
  · intro v hv
    rw [show (d.forward latent).2.scale
        = map4 (fun _ => (d.std : ℝ)) (map4 Real.tanh (d.convStack latent))
        from rfl, entries4_map4] at hv
    obtain ⟨u, -, rfl⟩ := List.mem_map.1 hv
    rfl

/-- C5 witness: a decoder whose layers are the identity, on the latent batch
`[[0]]`. -/
theorem decoder_forward_mean_bounded_witness :
    (-1 ≤ Real.tanh 0 ∧ Real.tanh 0 ≤ 1) ∧ ((1 : ℚ) : ℝ) = ((1 : ℚ) : ℝ) := by
  have h := decoder_forward_mean_bounded ⟨1, 1, 1, 1/5, fun _ t => t⟩ [[0]]
  constructor
  · refine h.1 (Real.tanh 0) ?_
    simp [Decoder.forward, Decoder.convStack, entries4, map4, leaky_relu,
      List.range_succ]
  · refine h.2 (((1 : ℚ) : ℝ)) ?_
    simp [Decoder.forward, Decoder.convStack, entries4, map4, leaky_relu,
      List.range_succ]

/-- C6: `ConstantGaussian.forward` returns a Normal with mean zero and scale
equal to the construction-time `std` at every position, of shape
`(x.size(0), output_dim)`. -/
theorem constant_gaussian_forward_shape (c : ConstantGaussian) (x : Mat) :
    ((c.forward x).2.loc.length = x.length ∧
      ∀ row ∈ (c.forward x).2.loc,
        row.length = c.output_dim ∧ ∀ v ∈ row, v = 0) ∧
    ((c.forward x).2.scale.length = x.length ∧
      ∀ row ∈ (c.forward x).2.scale,
        row.length = c.output_dim ∧ ∀ v ∈ row, v = (c.std : ℝ)) := by
  refine ⟨⟨List.length_replicate .., fun row hrow => ?_⟩,
          ⟨List.length_replicate .., fun row hrow => ?_⟩⟩ <;>
    rw [List.eq_of_mem_replicate hrow] <;>
    exact ⟨List.length_replicate .., fun v hv => List.eq_of_mem_replicate hv⟩

/-- C6 witness: a concrete `ConstantGaussian` on a one-row batch. -/
theorem constant_gaussian_forward_shape_witness :
    (ConstantGaussian.forward ⟨2, 3⟩ [[5]]).2.loc.length = 1 ∧
    (List.replicate 2 (0 : ℝ)).length = 2 ∧ (0 : ℝ) = 0 := by
  have h := constant_gaussian_forward_shape ⟨2, 3⟩ [[5]]
  refine ⟨h.1.1, ?_⟩
  have hrow := h.1.2 (List.replicate 2 (0 : ℝ))
    (by simp [ConstantGaussian.forward])
  exact ⟨hrow.1, hrow.2 0 (by simp)⟩

/-- C7: every `forward` method returns its module unchanged — parameters are
assigned only at construction (and by `copy_conv_weights_from`), never by a
forward pass. -/
theorem forward_preserves_module (g : Gaussian) (gi : GInput)
    (c : ConstantGaussian) (cx : Mat) (e : Encoder) (ex : Tensor4)
    (d : Decoder) (dl : Mat) (t : TaskNetwork) (ti : GInput) :
    (g.forward gi).1 = g ∧ (c.forward cx).1 = c ∧ (e.forward ex).1 = e ∧
    (d.forward dl).1 = d ∧ (t.forward ti).1 = t :=
  ⟨rfl, rfl, rfl, rfl, rfl⟩

/-- C9: `ConstantGaussian.forward` depends only on the batch size of its
input: inputs with equally many rows yield identical distributions. -/
theorem constant_gaussian_batch_only (c : ConstantGaussian) (x y : Mat)
    (h : x.length = y.length) :
    (c.forward x).2 = (c.forward y).2 := by
  simp [ConstantGaussian.forward, h]

/-- C9 witness: two different one-row inputs give the same distribution. -/
theorem constant_gaussian_batch_only_witness :
    (ConstantGaussian.forward ⟨2, 1⟩ [[1, 2]]).2
      = (ConstantGaussian.forward ⟨2, 1⟩ [[3, 4]]).2 :=
  constant_gaussian_batch_only ⟨2, 1⟩ [[1, 2]] [[3, 4]] rfl

/-- C2: `TaskNetwork.forward` returns the two-element list `[gamma, bias]`
obtained by splitting the network output (of last-dimension size
`2*output_dim`) into two equal halves along the last dimension, so `gamma`
and `bias` each have last-dimension size `output_dim`. -/
theorem task_network_forward_split (input_dim output_dim : Nat)
    (raw : List ℝ → List ℝ) (x : Mat)
    (hraw : (TaskNetwork.make input_dim output_dim raw).net.wf)
    (hx : ∀ row ∈ x, row.length = input_dim) :
    ((TaskNetwork.make input_dim output_dim raw).forward (.single x)).2
      = [(x.map raw).map (fun row => (chunk2 row).1),
         (x.map raw).map (fun row => (chunk2 row).2)] ∧
    (∀ row ∈ (x.map raw).map (fun row => (chunk2 row).1),
      row.length = output_dim) ∧
    (∀ row ∈ (x.map raw).map (fun row => (chunk2 row).2),
      row.length = output_dim) := by
  refine ⟨rfl, fun row hrow => ?_, fun row hrow => ?_⟩ <;>
  · obtain ⟨r0, hr0, rfl⟩ := List.mem_map.1 hrow
    obtain ⟨r, hr, rfl⟩ := List.mem_map.1 hr0
    have hlen : (raw r).length = output_dim * 2 := hraw r (hx r hr)
    simp [chunk2, hlen]
    omega

/-- C2 witness: a task network with `input_dim = 1`, `output_dim = 2` on a
one-row batch. -/
theorem task_network_forward_split_witness :
    (TaskNetwork.make 1 2 (fun _ => ([0, 0, 0, 0] : List ℝ))).net.wf ∧
    ([(0 : ℝ), 0]).length = 2 := by
  have hwf : (TaskNetwork.make 1 2 (fun _ => ([0, 0, 0, 0] : List ℝ))).net.wf := by
    intro v hv
    simp [TaskNetwork.make, create_linear_network]
  have h := task_network_forward_split 1 2 (fun _ => [0, 0, 0, 0]) [[5]] hwf
    (by simp)
  exact ⟨hwf, h.2.1 [0, 0] (by simp [chunk2])⟩

/-- C4: a `Gaussian` with `std = None` returns a Normal whose scale,
`softplus(raw) + 1e-5`, is strictly positive at every position; a `Gaussian`
with a positive fixed `std` returns that `std` as the scale at every
position. -/
theorem gaussian_scale_validity (g : Gaussian) (input : GInput) :
    (g.std = none → ∀ row ∈ (g.forward input).2.scale, ∀ v ∈ row, 0 < v) ∧
    (∀ s : ℚ, g.std = some s → 0 < s →
      ∀ row ∈ (g.forward input).2.scale, ∀ v ∈ row, v = (s : ℝ)) := by
  constructor
  · intro hstd row hrow v hv
    have hscale : (g.forward input).2.scale
        = ((input.toMat.map g.net.run).map (fun row => (chunk2 row).2)).map
            (fun row => row.map (fun v => softplus v + 1e-5)) := by
      simp [Gaussian.forward, hstd, pyTruthy]
    rw [hscale] at hrow
    obtain ⟨r, -, rfl⟩ := List.mem_map.1 hrow
    obtain ⟨u, -, rfl⟩ := List.mem_map.1 hv
    have h1 : (0 : ℝ) < 1e-5 := by norm_num
    linarith [softplus_nonneg u]
  · intro s hstd hs row hrow v hv
    have htr : pyTruthy g.std = true := by
      rw [hstd]
      simp [pyTruthy]
      exact ne_of_gt hs
    have hscale : (g.forward input).2.scale
        = (input.toMat.map g.net.run).map
            (fun row => row.map (fun _ => ((g.std.getD 0 : ℚ) : ℝ))) := by
      simp [Gaussian.forward, htr]
    rw [hscale] at hrow
    obtain ⟨r, -, rfl⟩ := List.mem_map.1 hrow
    obtain ⟨u, -, rfl⟩ := List.mem_map.1 hv
    simp [hstd]

/-- C4 witness: a learned-std head at raw output `0`, and a fixed-std head
with `std = 2`. -/
theorem gaussian_scale_validity_witness :
    (0 : ℝ) < softplus 0 + 1e-5 ∧ (2 : ℝ) = ((2 : ℚ) : ℝ) := by
  constructor
  · exact (gaussian_scale_validity
      (Gaussian.make 1 1 none (fun _ => [0, 0])) (.single [[3]])).1 rfl
      [softplus 0 + 1e-5]
      (by simp [Gaussian.forward, Gaussian.make, create_linear_network,
        pyTruthy, GInput.toMat, chunk2])
      (softplus 0 + 1e-5) (by simp)
  · exact (gaussian_scale_validity
      (Gaussian.make 1 1 (some 2) (fun _ => [0])) (.single [[3]])).2 2 rfl
      (by norm_num) [(2 : ℝ)]
      (by simp [Gaussian.forward, Gaussian.make, create_linear_network,
        pyTruthy, GInput.toMat])
      2 (by simp)

/-- C8: a `Gaussian` built with `std = 0` sizes its network for `output_dim`
outputs (the test `std is None` fails), yet `forward` takes the learned-std
branch (Python `if self.std:` is false at `0.0`) and chunks that output in
two, so the returned Normal has last-dimension size `output_dim / 2` and a
softplus-derived scale instead of the requested constant scale `0`. -/
theorem gaussian_std_zero_edge (input_dim output_dim : Nat)
    (raw : List ℝ → List ℝ) (x : Mat)
    (hraw : (Gaussian.make input_dim output_dim (some 0) raw).net.wf)
    (hx : ∀ row ∈ x, row.length = input_dim)
    (hev : 2 ∣ output_dim) :
    (Gaussian.make input_dim output_dim (some 0) raw).net.output_dim
      = output_dim ∧
    (∀ row ∈ ((Gaussian.make input_dim output_dim (some 0) raw).forward
        (.single x)).2.loc, row.length = output_dim / 2) ∧
    ((Gaussian.make input_dim output_dim (some 0) raw).forward
        (.single x)).2.scale
      = (x.map raw).map
          (fun row => ((chunk2 row).2).map (fun v => softplus v + 1e-5)) := by
  have hloc : ((Gaussian.make input_dim output_dim (some 0) raw).forward
      (.single x)).2.loc = (x.map raw).map (fun row => (chunk2 row).1) := by
    simp [Gaussian.forward, Gaussian.make, create_linear_network, pyTruthy,
      GInput.toMat]
  have hscale : ((Gaussian.make input_dim output_dim (some 0) raw).forward
      (.single x)).2.scale
      = (x.map raw).map
          (fun row => ((chunk2 row).2).map (fun v => softplus v + 1e-5)) := by
    simp [Gaussian.forward, Gaussian.make, create_linear_network, pyTruthy,
      GInput.toMat]
  refine ⟨rfl, fun row hrow => ?_, hscale⟩
  rw [hloc] at hrow
  obtain ⟨r0, hr0, rfl⟩ := List.mem_map.1 hrow
  obtain ⟨r, hr, rfl⟩ := List.mem_map.1 hr0
  have hlen : (raw r).length = output_dim := hraw r (hx r hr)
  simp [chunk2, hlen]
  omega

/-- C8 witness: `std = 0` with `output_dim = 2` yields rows of length
`1 = 2 / 2`. -/
theorem gaussian_std_zero_edge_witness :
    (Gaussian.make 1 2 (some 0) (fun _ => ([0, 0] : List ℝ))).net.output_dim
      = 2 ∧ ([(0 : ℝ)]).length = 2 / 2 := by
  have hwf : (Gaussian.make 1 2 (some 0) (fun _ => ([0, 0] : List ℝ))).net.wf := by
    intro v hv
    simp [Gaussian.make, create_linear_network]
  have h := gaussian_std_zero_edge 1 2 (fun _ => [0, 0]) [[3]] hwf (by simp)
    (by decide)
  exact ⟨h.1, h.2.1 [0]
    (by simp [Gaussian.forward, Gaussian.make, create_linear_network,
      pyTruthy, GInput.toMat, chunk2])⟩

/-- C10: on a list input, `Gaussian.forward` and `TaskNetwork.forward` agree
with themselves on the concatenation of the list along the last
dimension. -/
theorem forward_cat_homomorphism (g : Gaussian) (t : TaskNetwork)
    (xs : List Mat) :
    g.forward (.many xs) = g.forward (.single (catLastDim xs)) ∧
    t.forward (.many xs) = t.forward (.single (catLastDim xs)) :=
  ⟨rfl, rfl⟩

end Latent
